import Mathlib

/-!
Verification of the resumable EV-charge-station fetcher
(`src/fetch-stations.js`) against its natural-language specification.

The JavaScript program is shallowly embedded: every definition below is a
direct translation of a function of `fetch-stations.js` (the source line
numbers are given in each doc comment).  JavaScript numbers that hold
integer counts are modelled as `Nat`/`Int`; the two floating-point ratio
computations of the source are modelled as exact rationals (`ℚ`), which
agrees with IEEE double evaluation for all store sizes the program can
encounter; network and file I/O are modelled by explicit parameters
(fetch oracles, directory listings) as described at each definition.
-/

namespace EvFetch

/-- Fetch status of one station record, the three string values
`'pending' | 'success' | 'failed'` the source ever stores in
`station.fetchStatus` (fetch-stations.js lines 362, 500, 510, 513). -/
inductive FetchStatus where
  | pending
  | success
  | failed
  deriving DecidableEq, Repr

/-- Raw detail payload returned by the detail endpoint.  The body is opaque
to the core under verification (the spec's §1 delegates its interpretation
to the external `normalize` collaborator); only its `id` field is ever
inspected by the embedded claims, so only it is carried. -/
structure RawDetail where
  id : Int
  deriving DecidableEq, Repr

/-- A socket entry as it appears in the station listing / state file:
only its identifier is relevant to the core (fetch-stations.js line 274). -/
structure StateSocket where
  id : Int
  deriving DecidableEq, Repr

/-- One entity record of the state artifact, as created by
`fetchStationList` (fetch-stations.js lines 359-363) and mutated by
`processStations` (lines 493-516). -/
structure Station where
  id : Int
  lat : Option ℚ
  lng : Option ℚ
  sockets : List StateSocket
  fetchStatus : FetchStatus
  fetchAttempts : Nat
  lastAttemptTimestamp : Option String
  details : Option RawDetail
  errorInfo : Option String
  deriving DecidableEq, Repr

/-- `MAX_RETRIES` (fetch-stations.js line 33). -/
def MAX_RETRIES : Nat := 5

/-- `MAX_HISTORY_FILES` (fetch-stations.js line 28). -/
def MAX_HISTORY_FILES : Nat := 10

/-- `PERMANENT_FAILURE_THRESHOLD_PERCENT` (fetch-stations.js line 34).
Functions below that compare against the threshold take it as an explicit
parameter (it is a configuration constant; the claims instantiate it both
at this default and at 2). -/
def DEFAULT_THRESHOLD_PERCENT : ℚ := 1

/-- The predicate of the `.filter` in `processStations` (line 455) and of
the `.some` in `isStateComplete` (line 425): a station that still needs a
fetch attempt (`pending`, or `failed` with retries left). -/
def isRetryEligible (s : Station) : Bool :=
  decide (s.fetchStatus = FetchStatus.pending ∨
    (s.fetchStatus = FetchStatus.failed ∧ s.fetchAttempts < MAX_RETRIES))

/-- `isStateComplete` (fetch-stations.js lines 423-426): no pending or
retryable stations remain. -/
def isStateComplete (stations : List Station) : Bool :=
  !stations.any isRetryEligible

/-- The predicate of `countPermanentlyFailedStations` (line 437): status
`failed` with the retry budget exhausted. -/
def isPermanentlyFailed (s : Station) : Bool :=
  decide (s.fetchStatus = FetchStatus.failed ∧ MAX_RETRIES ≤ s.fetchAttempts)

/-- `countPermanentlyFailedStations` (fetch-stations.js lines 435-438). -/
def countPermanentlyFailedStations (stations : List Station) : Nat :=
  (stations.filter isPermanentlyFailed).length

/-- The percentage computed in `main` (line 772) and in
`updateLatestCompleteOutput` (line 611):
`total > 0 ? (permanentlyFailedCount / total) * 100 : 0`. -/
def permanentlyFailedPercent (stations : List Station) : ℚ :=
  if 0 < stations.length then
    ((countPermanentlyFailedStations stations : ℚ) / (stations.length : ℚ)) * 100
  else 0

/-- The exit-code decision of `main` (fetch-stations.js lines 775-792):
with permanent failures present, exit 1 iff the failure percentage
strictly exceeds the threshold; otherwise exit 0. -/
def computeExitCode (threshold : ℚ) (stations : List Station) : Nat :=
  if 0 < countPermanentlyFailedStations stations then
    if threshold < permanentlyFailedPercent stations then 1 else 0
  else 0

/-- A station whose retry budget is exhausted (one permanent failure). -/
def permFailedStation (i : Int) : Station :=
  ⟨i, none, none, [], FetchStatus.failed, 5, some "t", none, some "err"⟩

/-- A successfully fetched station. -/
def okStation (i : Int) : Station :=
  ⟨i, none, none, [], FetchStatus.success, 1, some "t", some ⟨i⟩, none⟩

/-- A 100-station store with exactly 2 permanent failures. -/
def store100of2 : List Station :=
  (List.range 98).map (fun n => okStation n) ++ [permFailedStation 98, permFailedStation 99]

/-- A 100-station store with exactly 3 permanent failures. -/
def store100of3 : List Station :=
  (List.range 97).map (fun n => okStation n) ++
    [permFailedStation 97, permFailedStation 98, permFailedStation 99]

/-- C1.  For a final store with `total > 0`, `main` (lines 770-792) exits
non-zero iff the permanent-failure ratio strictly exceeds the threshold;
at `total = 100`, `threshold = 2`, 2 permanent failures exit 0 and 3 exit 1. -/
theorem c1_exit_nonzero_iff_ratio_exceeds_threshold :
    (∀ (threshold : ℚ) (s : List Station), 0 ≤ threshold → 0 < s.length →
      (computeExitCode threshold s ≠ 0 ↔
        (countPermanentlyFailedStations s : ℚ) / (s.length : ℚ) > threshold / 100))
    ∧ computeExitCode 2 store100of2 = 0 ∧ computeExitCode 2 store100of3 = 1 := by
  refine ⟨?_, ?_, ?_⟩
  · intro t s ht hs
    have hn : (0:ℚ) < (s.length : ℚ) := by exact_mod_cast hs
    by_cases hc : 0 < countPermanentlyFailedStations s
    · have key : t / 100 < (countPermanentlyFailedStations s : ℚ) / (s.length : ℚ) ↔
          t < ((countPermanentlyFailedStations s : ℚ) / (s.length : ℚ)) * 100 :=
        div_lt_iff₀ (by norm_num)
      simp only [computeExitCode, permanentlyFailedPercent, if_pos hc, if_pos hs,
        gt_iff_lt, key]
      split_ifs with h <;> simp [h]
    · have hc0 : countPermanentlyFailedStations s = 0 := by omega
      have hr : ¬ (t / 100 < (0:ℚ)) := not_lt.mpr (div_nonneg ht (by norm_num))
      simp [computeExitCode, hc0, hr]
  · have hcount : countPermanentlyFailedStations store100of2 = 2 := by decide
    have hlen : store100of2.length = 100 := by decide
    simp [computeExitCode, permanentlyFailedPercent, hcount, hlen]
  · have hcount : countPermanentlyFailedStations store100of3 = 3 := by decide
    have hlen : store100of3.length = 100 := by decide
    simp [computeExitCode, permanentlyFailedPercent, hcount, hlen]
    norm_num

/-- Witness for C1: the main theorem instantiated at the two boundary
stores of the claim (`total = 100`, `threshold = 2`). -/
theorem c1_witness :
    (0:ℚ) ≤ 2 ∧ 0 < store100of3.length ∧
      (computeExitCode 2 store100of3 ≠ 0 ↔
        (countPermanentlyFailedStations store100of3 : ℚ) / (store100of3.length : ℚ) > 2 / 100) :=
  ⟨by norm_num, by decide,
    c1_exit_nonzero_iff_ratio_exceeds_threshold.1 2 store100of3 (by norm_num) (by decide)⟩

/-- C5.  `isStateComplete` (lines 422-426) is true iff no station is
retry-eligible, i.e. iff every station either succeeded or failed with its
retry budget exhausted. -/
theorem c5_isStateComplete_iff (s : List Station) :
    (isStateComplete s = true ↔ ∀ st ∈ s, isRetryEligible st = false)
    ∧ (isStateComplete s = true ↔
        ∀ st ∈ s, st.fetchStatus = FetchStatus.success ∨
          (st.fetchStatus = FetchStatus.failed ∧ MAX_RETRIES ≤ st.fetchAttempts)) := by
  constructor
  · simp [isStateComplete, List.any_eq_true]
  · simp only [isStateComplete, Bool.not_eq_eq_eq_not, Bool.not_true, List.any_eq_false,
      isRetryEligible, decide_eq_false_iff_not]
    constructor
    · intro h st hmem
      have h' := h st hmem
      cases hfs : st.fetchStatus <;> simp [hfs] at h' ⊢ <;> omega
    · intro h st hmem
      have h' := h st hmem
      cases hfs : st.fetchStatus <;> simp [hfs] at h' ⊢ <;> omega

/-- The listing entry data kept for each station by `fetchStationList`
(fetch-stations.js lines 359-361): id, the two coordinates, and the
listing's socket entries. -/
structure RawListed where
  id : Int
  lat : Option ℚ
  lng : Option ℚ
  sockets : List StateSocket
  deriving DecidableEq, Repr

/-- The fresh record `fetchStationList` builds per listed item
(fetch-stations.js lines 359-363). -/
def initStation (r : RawListed) : Station :=
  { id := r.id, lat := r.lat, lng := r.lng, sockets := r.sockets,
    fetchStatus := FetchStatus.pending, fetchAttempts := 0,
    lastAttemptTimestamp := none, details := none, errorInfo := none }

/-- Result of `fetchStationDetails` (fetch-stations.js lines 379-419):
either `{success: true, details, error: null}` or
`{success: false, details: null, error}`. -/
inductive FetchResult where
  | ok (details : RawDetail)
  | err (msg : String)
  deriving DecidableEq, Repr

/-- The in-place update `processStations` applies to the station that was
just attempted (fetch-stations.js lines 496-516): stamp the attempt time,
increment `fetchAttempts`, and either record the payload (status
`success`) or the error message (status `failed`, whether or not retries
remain, lines 509-515; `details` is left untouched on failure). -/
def applyAttempt (st : Station) (res : FetchResult) (ts : String) : Station :=
  match res with
  | FetchResult.ok d =>
      { st with
        lastAttemptTimestamp := some ts
        details := some d
        fetchStatus := FetchStatus.success
        fetchAttempts := st.fetchAttempts + 1
        errorInfo := none }
  | FetchResult.err m =>
      { st with
        lastAttemptTimestamp := some ts
        fetchAttempts := st.fetchAttempts + 1
        errorInfo := some m
        fetchStatus := FetchStatus.failed }

/-- Entity states reachable by the program: initialised from a listing
entry, then attempted only while retry-eligible (the filter on line 455
guards every attempt the processing loop makes). -/
inductive ReachableStation : Station → Prop where
  | init (r : RawListed) : ReachableStation (initStation r)
  | step (st : Station) (res : FetchResult) (ts : String) :
      ReachableStation st → isRetryEligible st = true →
      ReachableStation (applyAttempt st res ts)

/-- A concrete listing entry. -/
def listedA : RawListed := { id := 7, lat := none, lng := none, sockets := [] }

/-- The station of `listedA` after one failed attempt. -/
def failedOnceStation : Station :=
  applyAttempt (initStation listedA) (FetchResult.err "timeout") "t1"

/-- Counterexample to C4: one failed attempt yields a reachable state with
`details = null` but `fetchAttempts = 1 ≠ 0` (status `failed`), so the four
conditions of the claim are not pairwise equivalent. -/
theorem c4_counterexample :
    ReachableStation failedOnceStation ∧
      failedOnceStation.details = none ∧ failedOnceStation.fetchAttempts ≠ 0 ∧
      ¬ (failedOnceStation.fetchAttempts = 0 ↔ failedOnceStation.details = none) :=
  ⟨ReachableStation.step _ _ _ (ReachableStation.init listedA) (by decide),
    by decide, by decide, by decide⟩

/-- C4 amended: on every reachable state, `attempts == 0`,
`fetchStatus == pending` and `lastAttemptAt == null` are pairwise
equivalent, while `detail == null` is equivalent to
`fetchStatus ≠ succeeded` (a failed attempt leaves `detail` null, so that
condition is implied by `pending` but not equivalent to it). -/
theorem c4_amended_invariant (st : Station) (h : ReachableStation st) :
    (st.fetchAttempts = 0 ↔ st.fetchStatus = FetchStatus.pending)
    ∧ (st.fetchAttempts = 0 ↔ st.lastAttemptTimestamp = none)
    ∧ (st.details = none ↔ st.fetchStatus ≠ FetchStatus.success) := by
  induction h with
  | init r => simp [initStation]
  | step st res ts hst helig ih =>
      rcases ih with ⟨ih1, ih2, ih3⟩
      cases res with
      | ok d => simp [applyAttempt]
      | err m =>
          have hdet : st.details = none := by
            rw [ih3]
            simp only [isRetryEligible, decide_eq_true_eq] at helig
            rcases helig with h1 | h2
            · simp [h1]
            · simp [h2.1]
          simp [applyAttempt, hdet]

/-- Witness for the amended C4 at the freshly initialised `listedA`. -/
theorem c4_amended_witness :
    ((initStation listedA).fetchAttempts = 0 ↔
      (initStation listedA).fetchStatus = FetchStatus.pending)
    ∧ ((initStation listedA).fetchAttempts = 0 ↔
      (initStation listedA).lastAttemptTimestamp = none)
    ∧ ((initStation listedA).details = none ↔
      (initStation listedA).fetchStatus ≠ FetchStatus.success) :=
  c4_amended_invariant (initStation listedA) (ReachableStation.init listedA)

/-- Comparator of `sortStationsById` (fetch-stations.js lines 137-146):
ascending numeric id.  JavaScript `Array.prototype.sort` is stable, and
`List.insertionSort` is the matching stable sort. -/
def stationLe (a b : Station) : Prop := a.id ≤ b.id

instance : DecidableRel stationLe :=
  fun a b => inferInstanceAs (Decidable (a.id ≤ b.id))

instance : IsTotal Station stationLe := ⟨fun a b => le_total a.id b.id⟩

instance : IsTrans Station stationLe := ⟨fun _ _ _ h h2 => le_trans h h2⟩

/-- `sortStationsById` (fetch-stations.js lines 137-146) on state arrays. -/
def sortStationsById (l : List Station) : List Station := l.insertionSort stationLe

/-- A socket record of the output artifact.  Succeeded stations carry
sockets normalised by the external collaborator (all fields); in the
non-succeeded projection only the identifier is emitted
(fetch-stations.js lines 274-277), modelled by `none` detail fields. -/
structure OutSocket where
  id : Int
  type : Option String
  subType : Option String
  socketNumber : Option String
  power : Option ℚ
  deriving DecidableEq, Repr

/-- The bare socket projection `{id: socketId}` of line 276. -/
def bareSocket (i : Int) : OutSocket := ⟨i, none, none, none, none⟩

/-- A record of the output artifact (the shape written by
`createCleanedOutputData`, fetch-stations.js lines 259-278). -/
structure OutputStation where
  id : Int
  lat : Option ℚ
  lng : Option ℚ
  title : Option String
  address : Option String
  phone : Option String
  reportUrl : Option String
  reservationUrl : Option String
  operatorId : Option String
  operatorTitle : Option String
  serviceType : Option String
  brand : Option String
  cityId : Option String
  districtId : Option String
  sockets : List OutSocket
  deriving DecidableEq, Repr

/-- Socket comparator `(a, b) => a.id - b.id` (fetch-stations.js line 280). -/
def socketLe (a b : OutSocket) : Prop := a.id ≤ b.id

instance : DecidableRel socketLe :=
  fun a b => inferInstanceAs (Decidable (a.id ≤ b.id))

instance : IsTotal OutSocket socketLe := ⟨fun a b => le_total a.id b.id⟩

instance : IsTrans OutSocket socketLe := ⟨fun _ _ _ h h2 => le_trans h h2⟩

/-- The socket sort of fetch-stations.js line 280. -/
def sortSocketsById (l : List OutSocket) : List OutSocket := l.insertionSort socketLe

/-- Output-record comparator used by `sortStationsById` when applied to the
cleaned records in `saveFinalOutput` (fetch-stations.js line 235). -/
def outputLe (a b : OutputStation) : Prop := a.id ≤ b.id

instance : DecidableRel outputLe :=
  fun a b => inferInstanceAs (Decidable (a.id ≤ b.id))

instance : IsTotal OutputStation outputLe := ⟨fun a b => le_total a.id b.id⟩

instance : IsTrans OutputStation outputLe := ⟨fun _ _ _ h h2 => le_trans h h2⟩

/-- Sorting of the output artifact records by id. -/
def sortOutputById (l : List OutputStation) : List OutputStation := l.insertionSort outputLe

/-- The basic (non-succeeded) projection of `createCleanedOutputData`
(fetch-stations.js lines 259-281): id, the two coordinates, every detail
field null, and the listing sockets reduced to bare ids and sorted. -/
def basicOutputStation (st : Station) : OutputStation :=
  { id := st.id, lat := st.lat, lng := st.lng, title := none, address := none,
    phone := none, reportUrl := none, reservationUrl := none, operatorId := none,
    operatorTitle := none, serviceType := none, brand := none, cityId := none,
    districtId := none,
    sockets := sortSocketsById (st.sockets.map (fun sk => bareSocket sk.id)) }

/-- One element of `createCleanedOutputData`'s `.map` (fetch-stations.js
lines 245-298).  `norm` is the external `normalize` collaborator
(`normalizeStationData`, lines 185-229, outside the verified core per the
spec's §1); it may reject a payload (return null), in which case the code
falls back to a basic record with empty sockets (lines 289-295).  Whatever
branch produced the record, its `id` is then overwritten with the state
entry's id (line 286).  The `isNaN(baseId)` skip of line 248 cannot fire
in this embedding because state ids are integers by the data model. -/
def cleanStation (norm : RawDetail → Option OutputStation) (st : Station) : OutputStation :=
  let base : Option OutputStation :=
    match st.fetchStatus, st.details with
    | FetchStatus.success, some d => norm d
    | _, _ => some (basicOutputStation st)
  match base with
  | some o => { o with id := st.id }
  | none => { basicOutputStation st with sockets := [] }

/-- `createCleanedOutputData` (fetch-stations.js lines 244-300). -/
def createCleanedOutputData (norm : RawDetail → Option OutputStation)
    (state : List Station) : List OutputStation :=
  state.map (cleanStation norm)

/-- `saveFinalOutput` (fetch-stations.js lines 233-241): the cleaned
records are sorted by id before the artifact is serialised. -/
def saveFinalOutputData (l : List OutputStation) : List OutputStation :=
  sortOutputById l

/-- The cleaned record always carries the state entry's id (line 286). -/
theorem cleanStation_id (norm : RawDetail → Option OutputStation) (st : Station) :
    (cleanStation norm st).id = st.id := by
  unfold cleanStation
  cases hfs : st.fetchStatus <;> cases hd : st.details <;> simp only []
  all_goals first
    | rfl
    | (cases hn : norm _ <;> rfl)

/-- C7.  Every non-succeeded station is projected to a record holding only
its id, its two coordinates and its bare socket ids (all detail fields
null), and the output artifact as a whole is sorted by id ascending. -/
theorem c7_nonsucceeded_projection (norm : RawDetail → Option OutputStation)
    (state : List Station) :
    (∀ st ∈ state, ¬ (st.fetchStatus = FetchStatus.success ∧ st.details.isSome) →
      cleanStation norm st =
        { id := st.id, lat := st.lat, lng := st.lng, title := none, address := none,
          phone := none, reportUrl := none, reservationUrl := none, operatorId := none,
          operatorTitle := none, serviceType := none, brand := none, cityId := none,
          districtId := none,
          sockets := sortSocketsById (st.sockets.map (fun sk => bareSocket sk.id)) })
    ∧ List.Sorted outputLe (saveFinalOutputData (createCleanedOutputData norm state)) := by
  constructor
  · intro st _ hns
    unfold cleanStation
    cases hfs : st.fetchStatus <;> cases hd : st.details <;>
      simp only [basicOutputStation] <;>
      first
        | rfl
        | exact absurd ⟨hfs, by simp [hd]⟩ hns
  · exact List.sorted_insertionSort outputLe (createCleanedOutputData norm state)

/-- A pending station that carries two listing sockets (out of order). -/
def socketsStation : Station :=
  ⟨3, some 1, some 2, [⟨5⟩, ⟨4⟩], FetchStatus.pending, 0, none, none, none⟩

/-- Witness for C7 at a concrete pending station with sockets; the sorted
bare-socket list is also evaluated. -/
theorem c7_witness :
    cleanStation (fun _ => none) socketsStation =
      { id := socketsStation.id, lat := socketsStation.lat, lng := socketsStation.lng,
        title := none, address := none, phone := none, reportUrl := none,
        reservationUrl := none, operatorId := none, operatorTitle := none,
        serviceType := none, brand := none, cityId := none, districtId := none,
        sockets := sortSocketsById (socketsStation.sockets.map (fun sk => bareSocket sk.id)) }
    ∧ sortSocketsById (socketsStation.sockets.map (fun sk => bareSocket sk.id)) =
        [bareSocket 4, bareSocket 5]
    ∧ List.Sorted outputLe
        (saveFinalOutputData (createCleanedOutputData (fun _ => none) [socketsStation])) :=
  ⟨(c7_nonsucceeded_projection (fun _ => none) [socketsStation]).1 socketsStation
      (by simp) (by decide),
    by decide,
    (c7_nonsucceeded_projection (fun _ => none) [socketsStation]).2⟩

/-- C9.  The cleaned record's id is always the state entry's id — the
normalized payload can never change an entity's identity in the output
(line 286 overwrites it unconditionally, for every `normalize`
collaborator `norm`); consequently the ids of the artifact's records,
position by position, are the state's ids. -/
theorem c9_output_id_is_listing_id (norm : RawDetail → Option OutputStation) :
    (∀ st : Station, (cleanStation norm st).id = st.id)
    ∧ ∀ state : List Station,
        (createCleanedOutputData norm state).map (fun o => o.id) =
          state.map (fun s => s.id) := by
  refine ⟨cleanStation_id norm, ?_⟩
  intro state
  unfold createCleanedOutputData
  rw [List.map_map]
  exact List.map_congr_left (fun st _ => cleanStation_id norm st)

/-- The `findIndex`-and-update step of the processing loop
(fetch-stations.js lines 483, 496-516): the first station whose id matches
is replaced by `f`; when no station matches, the array is unchanged (the
loop `continue`s, line 487). -/
def updateById (f : Station → Station) (i : Int) : List Station → List Station
  | [] => []
  | s :: rest => if s.id = i then f s :: rest else s :: updateById f i rest

/-- `processStations` (fetch-stations.js lines 449-537) under the request
budget: line 455 filters the retry-eligible stations, line 456 truncates
to the first `maxReq` (`MAX_REQUESTS_PER_RUN`, a configuration constant
taken as a parameter), lines 478-482 skip entries with a falsy id (id 0),
and lines 493-516 apply one attempt to the matching entry of the array.
The fetch outcome for station `i` is given by the oracle `res i` and its
attempt timestamp by `tso i` — each station is attempted at most once per
run, so indexing the oracles by id loses nothing.  The model covers runs
that do not hit the wall-clock limit (real time is outside the shallow
embedding; the bound claimed here is the request budget). -/
def processStationsModel (res : Int → FetchResult) (tso : Int → String)
    (maxReq : Nat) (stations : List Station) : List Station :=
  ((stations.filter isRetryEligible).take maxReq).foldl
    (fun acc sp =>
      if sp.id = 0 then acc
      else updateById (fun st => applyAttempt st (res sp.id) (tso sp.id)) sp.id acc)
    stations

/-- An attempt never changes a station's id. -/
theorem applyAttempt_id (st : Station) (res : FetchResult) (ts : String) :
    (applyAttempt st res ts).id = st.id := by
  cases res <;> rfl

/-- With pairwise-distinct ids, updating the first match is updating every
match: `updateById` is a pointwise map. -/
theorem updateById_eq_map (f : Station → Station) (i : Int) :
    ∀ l : List Station, (l.map (fun s => s.id)).Nodup →
      updateById f i l = l.map (fun s => if s.id = i then f s else s) := by
  intro l
  induction l with
  | nil => intro _; rfl
  | cons s rest ih =>
      intro hnd
      rw [List.map_cons, List.nodup_cons] at hnd
      by_cases h : s.id = i
      · have hrest : rest.map (fun x => if x.id = i then f x else x) = rest := by
          have : ∀ x ∈ rest, (if x.id = i then f x else x) = x := by
            intro x hx
            have : x.id ≠ i := fun hxi => hnd.1 (by
              rw [← h] at hxi
              exact (List.mem_map.mpr ⟨x, hx, hxi⟩))
            simp [this]
          exact (List.map_congr_left this).trans (List.map_id rest)
        simp [updateById, h, hrest]
      · simp [updateById, h, ih hnd.2]

/-- Folding `updateById` over a duplicate-free list of ids is a single
pointwise map over the array. -/
theorem foldl_updateById (g : Int → Station → Station)
    (hg : ∀ i s, (g i s).id = s.id) :
    ∀ (ids : List Int) (l : List Station),
      (l.map (fun s => s.id)).Nodup → ids.Nodup →
      ids.foldl (fun acc i => updateById (g i) i acc) l
        = l.map (fun s => if s.id ∈ ids then g s.id s else s) := by
  intro ids
  induction ids with
  | nil =>
      intro l _ _
      simp
  | cons i ids ih =>
      intro l hl hids
      rw [List.nodup_cons] at hids
      rw [List.foldl_cons, updateById_eq_map (g i) i l hl]
      have hids_pres : ((l.map (fun s => if s.id = i then g i s else s)).map
          (fun s => s.id)) = l.map (fun s => s.id) := by
        rw [List.map_map]
        refine List.map_congr_left ?_
        intro s _
        by_cases h : s.id = i <;> simp [h, hg]
      rw [ih _ (by rw [hids_pres]; exact hl) hids.2, List.map_map]
      refine List.map_congr_left ?_
      intro s _
      simp only [Function.comp_apply]
      by_cases h : s.id = i
      · rw [if_pos h]
        have h2 : ¬ ((g i s).id ∈ ids) := by rw [hg i s, h]; exact hids.1
        rw [if_neg h2, h, if_pos (List.mem_cons_self i ids)]
      · rw [if_neg h]
        by_cases hmem : s.id ∈ ids
        · rw [if_pos hmem, if_pos (List.mem_cons_of_mem i hmem)]
        · rw [if_neg hmem, if_neg (by simp [List.mem_cons, h, hmem])]

/-- Two folds agree when their step functions agree on the list's
elements. -/
theorem foldl_congr_of_mem {α β : Type} (f g : β → α → β) :
    ∀ (l : List α) (init : β), (∀ a ∈ l, ∀ b, f b a = g b a) →
      l.foldl f init = l.foldl g init := by
  intro l
  induction l with
  | nil => intro _ _; rfl
  | cons a l ih =>
      intro init h
      rw [List.foldl_cons, List.foldl_cons, h a (List.mem_cons_self a l)]
      exact ih _ (fun x hx b => h x (List.mem_cons_of_mem a hx) b)

/-- C6.  With pairwise-distinct non-zero ids, a single processing run
attempts exactly the first `maxReq` retry-eligible stations — each of them
receives one `applyAttempt` — and leaves every other record untouched; the
batch never exceeds `maxReq` stations, and every chosen id belongs to a
retry-eligible station of the store. -/
theorem c6_budget_bounded_processing (res : Int → FetchResult) (tso : Int → String)
    (maxReq : Nat) (stations : List Station)
    (hnodup : (stations.map (fun s => s.id)).Nodup)
    (hnz : ∀ st ∈ stations, st.id ≠ 0) :
    processStationsModel res tso maxReq stations
      = stations.map (fun s =>
          if s.id ∈ ((stations.filter isRetryEligible).take maxReq).map (fun t => t.id)
          then applyAttempt s (res s.id) (tso s.id) else s)
    ∧ ((stations.filter isRetryEligible).take maxReq).length ≤ maxReq
    ∧ (∀ i ∈ ((stations.filter isRetryEligible).take maxReq).map (fun t => t.id),
        ∃ st ∈ stations, isRetryEligible st = true ∧ st.id = i) := by
  have hchosen : ∀ st ∈ (stations.filter isRetryEligible).take maxReq,
      st ∈ stations ∧ isRetryEligible st = true := by
    intro st hst
    have hf : st ∈ stations.filter isRetryEligible :=
      (List.take_sublist maxReq (stations.filter isRetryEligible)).subset hst
    exact ⟨(List.mem_filter.mp hf).1, (List.mem_filter.mp hf).2⟩
  have hsub : List.Sublist ((stations.filter isRetryEligible).take maxReq) stations :=
    (List.take_sublist maxReq (stations.filter isRetryEligible)).trans
      (List.filter_sublist stations)
  have hids_nodup :
      (((stations.filter isRetryEligible).take maxReq).map (fun t => t.id)).Nodup :=
    List.Nodup.sublist (List.Sublist.map (fun t => t.id) hsub) hnodup
  refine ⟨?_, ?_, ?_⟩
  · have h1 : processStationsModel res tso maxReq stations
        = (((stations.filter isRetryEligible).take maxReq).map (fun t => t.id)).foldl
            (fun acc i => if i = 0 then acc
              else updateById (fun st => applyAttempt st (res i) (tso i)) i acc)
            stations := by
      unfold processStationsModel
      rw [List.foldl_map]
    have h2 : (((stations.filter isRetryEligible).take maxReq).map (fun t => t.id)).foldl
          (fun acc i => if i = 0 then acc
            else updateById (fun st => applyAttempt st (res i) (tso i)) i acc)
          stations
        = (((stations.filter isRetryEligible).take maxReq).map (fun t => t.id)).foldl
            (fun acc i => updateById (fun st => applyAttempt st (res i) (tso i)) i acc)
            stations := by
      refine foldl_congr_of_mem _ _ _ _ ?_
      intro i hi b
      obtain ⟨st, hst, rfl⟩ := List.mem_map.mp hi
      rw [if_neg (hnz st (hchosen st hst).1)]
    rw [h1, h2]
    exact foldl_updateById (fun i s => applyAttempt s (res i) (tso i))
      (fun i s => applyAttempt_id s (res i) (tso i)) _ stations hnodup hids_nodup
  · exact List.length_take_le maxReq (stations.filter isRetryEligible)
  · intro i hi
    obtain ⟨st, hst, rfl⟩ := List.mem_map.mp hi
    exact ⟨st, (hchosen st hst).1, (hchosen st hst).2, rfl⟩

/-- Twelve freshly-listed (hence retry-eligible) stations, ids 1..12. -/
def twelveStations : List Station :=
  (List.range 12).map (fun n => initStation ⟨(n : Int) + 1, none, none, []⟩)

/-- The all-failing fetch oracle. -/
def downOracle : Int → FetchResult := fun _ => FetchResult.err "down"

/-- A constant attempt-timestamp oracle. -/
def constTso : Int → String := fun _ => "t2"

/-- Witness for C6: with `maxRequests = 5` and 12 retry-eligible stations,
exactly 5 records change (one added attempt each), the remaining 7 are
byte-identical, and the store is still incomplete afterwards. -/
theorem c6_witness :
    (processStationsModel downOracle constTso 5 twelveStations
      = twelveStations.map (fun s =>
          if s.id ∈ ((twelveStations.filter isRetryEligible).take 5).map (fun t => t.id)
          then applyAttempt s (downOracle s.id) (constTso s.id) else s))
    ∧ ((twelveStations.filter isRetryEligible).take 5).length ≤ 5
    ∧ (twelveStations.filter isRetryEligible).length = 12
    ∧ ((twelveStations.filter isRetryEligible).take 5).map (fun t => t.id) = [1, 2, 3, 4, 5]
    ∧ (processStationsModel downOracle constTso 5 twelveStations).countP
        (fun s => decide (s.fetchAttempts = 1)) = 5
    ∧ (processStationsModel downOracle constTso 5 twelveStations).drop 5
        = twelveStations.drop 5
    ∧ isStateComplete (processStationsModel downOracle constTso 5 twelveStations) = false :=
  ⟨(c6_budget_bounded_processing downOracle constTso 5 twelveStations
      (by decide) (by decide)).1,
    (c6_budget_bounded_processing downOracle constTso 5 twelveStations
      (by decide) (by decide)).2.1,
    by decide, by decide, by decide, by decide, by decide⟩

/-- `loadState` (fetch-stations.js lines 304-322): the parsed artifact is
sorted by id before being returned.  JSON serialisation of a state array
is deterministic and parsing inverts it, so the artifact on disk is
modelled by the array value itself. -/
def loadStateModel (saved : List Station) : List Station := sortStationsById saved

/-- `saveState` (fetch-stations.js lines 325-342): sorts the state in
place, writes it, then derives the cleaned output with
`createCleanedOutputData` and writes it with `saveFinalOutput` (which
sorts by id again).  The value is the pair of artifacts written. -/
def saveStateArtifacts (norm : RawDetail → Option OutputStation)
    (state : List Station) : List Station × List OutputStation :=
  (sortStationsById state,
    saveFinalOutputData (createCleanedOutputData norm (sortStationsById state)))

/-- Sorting the state array is idempotent. -/
theorem sortStationsById_idem (l : List Station) :
    sortStationsById (sortStationsById l) = sortStationsById l :=
  List.Sorted.insertionSort_eq (List.sorted_insertionSort stationLe l)

/-- C8.  Resuming a checkpointed snapshot in which no station is
retry-eligible and running the processing step produces exactly the
artifacts the previous checkpoint wrote: the processing step does not
touch the store (no new attempts), and the save of the reloaded store is
value-identical — hence, JSON serialisation being deterministic,
byte-identical — to the previous save. -/
theorem c8_resume_idempotent (norm : RawDetail → Option OutputStation)
    (res : Int → FetchResult) (tso : Int → String) (maxReq : Nat)
    (state : List Station)
    (h : ∀ st ∈ state, isRetryEligible st = false) :
    processStationsModel res tso maxReq (loadStateModel (saveStateArtifacts norm state).1)
        = (saveStateArtifacts norm state).1
    ∧ saveStateArtifacts norm
        (processStationsModel res tso maxReq
          (loadStateModel (saveStateArtifacts norm state).1))
      = saveStateArtifacts norm state := by
  have hperm : (sortStationsById state).Perm state :=
    List.perm_insertionSort stationLe state
  have h1 : ∀ st ∈ sortStationsById state, isRetryEligible st = false :=
    fun st hst => h st (hperm.mem_iff.mp hst)
  have hload : loadStateModel (saveStateArtifacts norm state).1 = sortStationsById state := by
    simp only [loadStateModel, saveStateArtifacts]
    exact sortStationsById_idem state
  have hfilter : (sortStationsById state).filter isRetryEligible = [] := by
    rw [List.filter_eq_nil_iff]
    intro st hst
    simp [h1 st hst]
  have hproc : processStationsModel res tso maxReq (sortStationsById state)
      = sortStationsById state := by
    unfold processStationsModel
    rw [hfilter, List.take_nil]
    rfl
  constructor
  · rw [hload, hproc]
    rfl
  · rw [hload, hproc]
    simp only [saveStateArtifacts]
    rw [sortStationsById_idem]

/-- A complete two-station store (no retry-eligible entries). -/
def completeStore : List Station := [okStation 2, permFailedStation 1]

/-- Witness for C8 at a concrete complete store. -/
theorem c8_witness :
    (∀ st ∈ completeStore, isRetryEligible st = false)
    ∧ processStationsModel downOracle constTso 1000
        (loadStateModel (saveStateArtifacts (fun _ => none) completeStore).1)
      = (saveStateArtifacts (fun _ => none) completeStore).1
    ∧ saveStateArtifacts (fun _ => none)
        (processStationsModel downOracle constTso 1000
          (loadStateModel (saveStateArtifacts (fun _ => none) completeStore).1))
      = saveStateArtifacts (fun _ => none) completeStore :=
  ⟨by decide,
    (c8_resume_idempotent (fun _ => none) downOracle constTso 1000 completeStore (by decide)).1,
    (c8_resume_idempotent (fun _ => none) downOracle constTso 1000 completeStore (by decide)).2⟩

/-- One entry of the run history: the filename timestamp, the result of
`loadState` on the state artifact (`none` models a missing or unparseable
file, fetch-stations.js lines 304-322), and the bytes of the run's output
artifact (`none` when that file is absent).  Output bytes are opaque
here — the alias update copies them verbatim (lines 636-638). -/
structure Snapshot where
  ts : String
  stateData : Option (List Station)
  outputData : Option String
  deriving DecidableEq

/-- Descending filename order, `sort((a, b) => b.localeCompare(a))`
(fetch-stations.js lines 545, 597, 684): `a` comes before `b` when its
timestamp is not smaller.  The filenames share prefix and suffix, so this
is byte order of the timestamps (modelled on the char lists, which for
these ASCII strings coincides with `localeCompare`). -/
def snapGe (a b : Snapshot) : Prop := ¬ a.ts.data < b.ts.data

instance : DecidableRel snapGe :=
  fun a b => inferInstanceAs (Decidable (¬ a.ts.data < b.ts.data))

instance : IsTotal Snapshot snapGe :=
  ⟨fun a b => by
    by_cases h : a.ts.data < b.ts.data
    · exact Or.inr (asymm h)
    · exact Or.inl h⟩

instance : IsTrans Snapshot snapGe :=
  ⟨fun _ _ _ hab hbc =>
    not_lt.mpr (le_trans (not_lt.mp hbc) (not_lt.mp hab))⟩

/-- The newest-first directory listing used by `main`,
`updateLatestCompleteOutput` and `cleanupOldFiles`. -/
def sortSnapshotsDesc (l : List Snapshot) : List Snapshot := l.insertionSort snapGe

/-- The per-snapshot usability check of `updateLatestCompleteOutput`
(fetch-stations.js lines 602-625): the state must load, be complete, and
its permanent-failure percentage must not exceed the threshold. -/
def snapshotUsable (threshold : ℚ) (snap : Snapshot) : Bool :=
  match snap.stateData with
  | none => false
  | some stations =>
      isStateComplete stations && decide (permanentlyFailedPercent stations ≤ threshold)

/-- `updateLatestCompleteOutput` (fetch-stations.js lines 589-658): walk
the history newest-first, stop at the first usable snapshot, and copy its
output artifact over the published alias (lines 628-645); when no usable
snapshot exists, or the chosen snapshot's output file is missing (line
643), the alias file is left untouched. -/
def updateLatestCompleteOutput (threshold : ℚ) (files : List Snapshot)
    (currentAlias : Option String) : Option String :=
  match (sortSnapshotsDesc files).find? (snapshotUsable threshold) with
  | some snap =>
      match snap.outputData with
      | some content => some content
      | none => currentAlias
  | none => currentAlias

/-- In a descending-sorted history, `find?` returns the usable snapshot
that strictly dominates every other usable one. -/
theorem find_first_usable (p : Snapshot → Bool) :
    ∀ l : List Snapshot, List.Pairwise snapGe l →
      ∀ snap ∈ l, p snap = true →
        (∀ f ∈ l, p f = true → f ≠ snap → f.ts.data < snap.ts.data) →
        l.find? p = some snap := by
  intro l
  induction l with
  | nil => intro _ snap h; cases h
  | cons a l ih =>
      intro hpw snap hmem hp hmax
      by_cases hpa : p a = true
      · have heq : a = snap := by
          by_contra hne
          have hlt : a.ts.data < snap.ts.data :=
            hmax a (List.mem_cons_self a l) hpa hne
          rcases List.mem_cons.mp hmem with rfl | htail
          · exact hne rfl
          · exact absurd hlt ((List.pairwise_cons.mp hpw).1 snap htail)
        rw [heq] at hpa ⊢
        exact List.find?_cons_of_pos l hpa
      · have hsnap_tail : snap ∈ l := by
          rcases List.mem_cons.mp hmem with rfl | h
          · exact absurd hp hpa
          · exact h
        rw [List.find?_cons_of_neg l (by simp [hpa])]
        exact ih (List.pairwise_cons.mp hpw).2 snap hsnap_tail hp
          (fun f hf hpf hne => hmax f (List.mem_cons_of_mem a hf) hpf hne)

/-- C2.  The published alias is updated by copying the output artifact of
the newest usable snapshot — complete and within the failure threshold —
found anywhere in the history (not necessarily the one just processed);
when no usable snapshot exists, the alias is not written at all. -/
theorem c2_alias_from_newest_usable_snapshot (threshold : ℚ) (files : List Snapshot)
    (alias0 : Option String) :
    ((∀ f ∈ files, snapshotUsable threshold f = false) →
      updateLatestCompleteOutput threshold files alias0 = alias0)
    ∧ (∀ snap ∈ files, snapshotUsable threshold snap = true →
        (∀ f ∈ files, snapshotUsable threshold f = true → f ≠ snap →
          f.ts.data < snap.ts.data) →
        ∀ c : String, snap.outputData = some c →
          updateLatestCompleteOutput threshold files alias0 = some c) := by
  have hperm : (sortSnapshotsDesc files).Perm files :=
    List.perm_insertionSort snapGe files
  constructor
  · intro hnone
    have hfind : (sortSnapshotsDesc files).find? (snapshotUsable threshold) = none := by
      rw [List.find?_eq_none]
      intro x hx
      simp [hnone x (hperm.mem_iff.mp hx)]
    unfold updateLatestCompleteOutput
    rw [hfind]
  · intro snap hmem husable hmax c hout
    have hfind : (sortSnapshotsDesc files).find? (snapshotUsable threshold) = some snap := by
      refine find_first_usable (snapshotUsable threshold) (sortSnapshotsDesc files)
        (List.sorted_insertionSort snapGe files) snap
        (hperm.mem_iff.mpr hmem) husable ?_
      intro f hf hpf hne
      exact hmax f (hperm.mem_iff.mp hf) hpf hne
    unfold updateLatestCompleteOutput
    rw [hfind]
    simp [hout]

/-- An older healthy snapshot (empty store: complete, ratio 0). -/
def snapOld : Snapshot := ⟨"20250101T000000Z", some [], some "OLD"⟩

/-- A newer healthy snapshot. -/
def snapNew : Snapshot := ⟨"20250102T000000Z", some [], some "NEW"⟩

/-- A two-run history, listed oldest-first on disk. -/
def historyTwo : List Snapshot := [snapOld, snapNew]

/-- A history whose only state artifact fails to load. -/
def historyBad : List Snapshot := [⟨"20250103T000000Z", none, some "BAD"⟩]

/-- Witness for C2: with two healthy runs the alias receives the newer
output even though the older one is also usable; with only an unloadable
run the alias is untouched. -/
theorem c2_witness :
    snapNew ∈ historyTwo ∧ snapshotUsable 1 snapNew = true
    ∧ updateLatestCompleteOutput 1 historyTwo (some "stale") = some "NEW"
    ∧ updateLatestCompleteOutput 1 historyBad (some "stale") = some "stale" :=
  ⟨by decide, by decide,
    (c2_alias_from_newest_usable_snapshot 1 historyTwo (some "stale")).2 snapNew
      (by decide) (by decide) (by decide) "NEW" (by decide),
    (c2_alias_from_newest_usable_snapshot 1 historyBad (some "stale")).1 (by decide)⟩

/-- `cleanupOldFiles` (fetch-stations.js lines 540-583): list the state
files newest-first; when more than `MAX_HISTORY_FILES` exist, delete every
older one together with its output artifact; otherwise touch nothing. -/
def cleanupOldFiles (files : List Snapshot) : List Snapshot :=
  if MAX_HISTORY_FILES < (sortSnapshotsDesc files).length then
    (sortSnapshotsDesc files).take MAX_HISTORY_FILES
  else files

/-- The on-disk state an invocation can touch: the run history (state and
output directories) and the published alias file. -/
structure FileSystem where
  snapshots : List Snapshot
  publishedAlias : Option String
  deriving DecidableEq

/-- `main` on the branch where a fresh run starts and the listing fetch
throws (fetch-stations.js lines 735-751): `exitCode` becomes 1 and
`currentStations` stays null, so processing is skipped (line 755), the
alias update is skipped because the exit code is non-zero (lines 823-827),
and no state or output artifact has been written (the save on line 745 is
only reached when the fetch succeeded) — but `cleanupOldFiles` still runs
unconditionally (line 830) before `process.exit(exitCode)` (line 840). -/
def listingFailureRun (fs : FileSystem) : FileSystem × Nat :=
  ({ snapshots := cleanupOldFiles fs.snapshots, publishedAlias := fs.publishedAlias }, 1)

/-- Eleven distinct snapshot timestamps. -/
def elevenSnapshots : List Snapshot :=
  ["t00", "t01", "t02", "t03", "t04", "t05", "t06", "t07", "t08", "t09", "t10"].map
    (fun t => ⟨t, none, none⟩)

/-- Counterexample to C3: with eleven snapshots on disk (one more than
`MAX_HISTORY_FILES`, e.g. after a kill between checkpoint and rotation), a
listing-failure invocation still rotates and deletes the oldest snapshot,
contradicting the claim that no rotation/deletion occurs. -/
theorem c3_counterexample :
    (listingFailureRun ⟨elevenSnapshots, some "alias"⟩).2 = 1
    ∧ elevenSnapshots.length = 11
    ∧ (listingFailureRun ⟨elevenSnapshots, some "alias"⟩).1.snapshots.length = 10
    ∧ (⟨"t00", none, none⟩ : Snapshot) ∈ elevenSnapshots
    ∧ (⟨"t00", none, none⟩ : Snapshot) ∉
        (listingFailureRun ⟨elevenSnapshots, some "alias"⟩).1.snapshots :=
  ⟨rfl, by decide, by decide, by decide, by decide⟩

/-- C3 amended: a listing-fetch failure exits with code 1, writes no run
snapshot, and leaves the published alias untouched; rotation still runs,
but deletes nothing as long as the history holds at most
`MAX_HISTORY_FILES` snapshots (the steady state the rotation itself
maintains). -/
theorem c3_amended_listing_failure (fs : FileSystem)
    (h : fs.snapshots.length ≤ MAX_HISTORY_FILES) :
    (listingFailureRun fs).2 = 1
    ∧ (listingFailureRun fs).1.publishedAlias = fs.publishedAlias
    ∧ (listingFailureRun fs).1.snapshots = fs.snapshots := by
  have hlen : (sortSnapshotsDesc fs.snapshots).length = fs.snapshots.length :=
    (List.perm_insertionSort snapGe fs.snapshots).length_eq
  have hnot : ¬ MAX_HISTORY_FILES < (sortSnapshotsDesc fs.snapshots).length := by
    rw [hlen]
    exact not_lt.mpr h
  exact ⟨rfl, rfl, by simp only [listingFailureRun, cleanupOldFiles, if_neg hnot]⟩

/-- Witness for the amended C3 at a one-snapshot history. -/
theorem c3_amended_witness :
    (FileSystem.mk [snapOld] (some "keep")).snapshots.length ≤ MAX_HISTORY_FILES
    ∧ (listingFailureRun ⟨[snapOld], some "keep"⟩).2 = 1
    ∧ (listingFailureRun ⟨[snapOld], some "keep"⟩).1.publishedAlias = some "keep"
    ∧ (listingFailureRun ⟨[snapOld], some "keep"⟩).1.snapshots = [snapOld] :=
  ⟨by decide,
    (c3_amended_listing_failure ⟨[snapOld], some "keep"⟩ (by decide)).1,
    (c3_amended_listing_failure ⟨[snapOld], some "keep"⟩ (by decide)).2.1,
    (c3_amended_listing_failure ⟨[snapOld], some "keep"⟩ (by decide)).2.2⟩

/-- A UTC wall-clock instant at millisecond precision — the component view
a `Date` exposes through `getUTCFullYear` .. `getUTCSeconds`
(fetch-stations.js lines 68-74). -/
structure UtcDateTime where
  year : Nat
  month : Nat
  day : Nat
  hour : Nat
  minute : Nat
  second : Nat
  ms : Nat
  deriving DecidableEq, Repr

/-- Proleptic Gregorian leap year, as used by JavaScript `Date`. -/
def isLeapYear (y : Nat) : Bool :=
  decide (y % 4 = 0 ∧ (y % 100 ≠ 0 ∨ y % 400 = 0))

/-- Days in a month of the proleptic Gregorian calendar. -/
def daysInMonth (y m : Nat) : Nat :=
  if m = 2 then (if isLeapYear y then 29 else 28)
  else if m = 4 ∨ m = 6 ∨ m = 9 ∨ m = 11 then 30
  else 31

/-- The calendar check the JavaScript `Date` constructor performs on the
reconstructed ISO string in `parseTimestamp` (fetch-stations.js lines
109-115): an invalid component combination yields an invalid `Date` and
hence `null`. -/
def isValidDate (y mo d h mi s : Nat) : Bool :=
  decide (1 ≤ mo ∧ mo ≤ 12 ∧ 1 ≤ d ∧ d ≤ daysInMonth y mo ∧
    h ≤ 23 ∧ mi ≤ 59 ∧ s ≤ 59)

/-- A real wall-clock instant: calendar-valid, with a 4-digit year (so
that `String(year)` in `generateTimestamp` emits exactly 4 characters —
true for every instant the program can observe). -/
def ValidInstant (dt : UtcDateTime) : Prop :=
  isValidDate dt.year dt.month dt.day dt.hour dt.minute dt.second = true
  ∧ 1000 ≤ dt.year ∧ dt.year ≤ 9999

instance (dt : UtcDateTime) : Decidable (ValidInstant dt) := by
  unfold ValidInstant
  infer_instance

/-- The ASCII digit character of `d`. -/
def digitChar (d : Nat) : Char := Char.ofNat (48 + d)

/-- `String(n).padStart(2, '0')` for `n ≤ 99` (fetch-stations.js lines
70-74). -/
def padDigits2 (n : Nat) : List Char := [digitChar (n / 10), digitChar (n % 10)]

/-- `String(year)` for a 4-digit year (fetch-stations.js line 69). -/
def yearDigits (y : Nat) : List Char := padDigits2 (y / 100) ++ padDigits2 (y % 100)

/-- `generateTimestamp` (fetch-stations.js lines 67-76):
`YYYYMMDDTHHMMSSZ` from the UTC components; milliseconds are dropped. -/
def generateTimestamp (dt : UtcDateTime) : String :=
  String.mk (yearDigits dt.year ++ (padDigits2 dt.month ++ (padDigits2 dt.day ++
    ('T' :: (padDigits2 dt.hour ++ (padDigits2 dt.minute ++
      (padDigits2 dt.second ++ ['Z'])))))))

/-- Numeric value of an ASCII digit character; `none` for a non-digit (a
non-digit component makes the reconstructed ISO string unparseable). -/
def digitVal (c : Char) : Option Nat :=
  if '0' ≤ c ∧ c ≤ '9' then some (c.toNat - 48) else none

/-- Value of a two-digit group. -/
def twoDigitVal (a b : Char) : Option Nat :=
  match digitVal a, digitVal b with
  | some x, some y => some (10 * x + y)
  | _, _ => none

/-- `parseTimestamp` (fetch-stations.js lines 96-121): validate the
`YYYYMMDDTHHMMSSZ` shape (length 16, `'T'` at index 8, `'Z'` at 15),
reconstruct the ISO components from the digit groups, and let `Date`
validate the calendar; `null` on any failure.  A recovered instant has
millisecond 0. -/
def parseTimestamp (s : String) : Option UtcDateTime :=
  match s.data with
  | [y1, y2, y3, y4, mo1, mo2, d1, d2, t, h1, h2, mi1, mi2, s1, s2, z] =>
      if t = 'T' ∧ z = 'Z' then
        match twoDigitVal y1 y2, twoDigitVal y3 y4, twoDigitVal mo1 mo2,
            twoDigitVal d1 d2, twoDigitVal h1 h2, twoDigitVal mi1 mi2,
            twoDigitVal s1 s2 with
        | some yh, some yl, some mo, some d, some h, some mi, some sec =>
            if isValidDate (100 * yh + yl) mo d h mi sec then
              some ⟨100 * yh + yl, mo, d, h, mi, sec, 0⟩
            else none
        | _, _, _, _, _, _, _ => none
      else none
  | _ => none

/-- Mixed-radix encoding of the second-truncated instant; on calendar
bounds it orders exactly as chronological time at whole-second
granularity (which is all the filename comparisons can see). -/
def chronKey (dt : UtcDateTime) : Nat :=
  ((((dt.year * 100 + dt.month) * 100 + dt.day) * 100 + dt.hour) * 100 +
    dt.minute) * 100 + dt.second

theorem daysInMonth_le_31 (y m : Nat) : daysInMonth y m ≤ 31 := by
  unfold daysInMonth
  split_ifs <;> omega

/-- The empty char list is not below itself. -/
theorem char_nil_lt_nil : ¬ (([] : List Char) < []) := by decide

theorem digitVal_digitChar : ∀ d, d < 10 → digitVal (digitChar d) = some d := by decide

theorem twoDigitVal_digitChar :
    ∀ a, a < 10 → ∀ b, b < 10 →
      twoDigitVal (digitChar a) (digitChar b) = some (10 * a + b) := by decide

theorem digitChar_lt_iff :
    ∀ a, a < 10 → ∀ b, b < 10 → (digitChar a < digitChar b ↔ a < b) := by decide

theorem digitChar_eq_iff :
    ∀ a, a < 10 → ∀ b, b < 10 → (digitChar a = digitChar b ↔ a = b) := by decide

/-- Head-to-head characterisation of the lexicographic order on char
lists. -/
theorem char_cons_lt_iff (a b : Char) (as bs : List Char) :
    (a :: as : List Char) < (b :: bs) ↔ a < b ∨ (a = b ∧ as < bs) := by
  constructor
  · intro h
    have h' : List.Lex (fun c d : Char => c < d) (a :: as) (b :: bs) := h
    cases h' with
    | rel h => exact Or.inl h
    | cons h => exact Or.inr ⟨rfl, h⟩
  · rintro (h | ⟨rfl, h⟩)
    · exact List.Lex.rel h
    · exact List.Lex.cons h

/-- Comparing two-digit blocks with a common remainder shape. -/
theorem padDigits2_append_lt_iff (x y : Nat) (hx : x < 100) (hy : y < 100)
    (r₁ r₂ : List Char) :
    ((padDigits2 x ++ r₁ : List Char) < padDigits2 y ++ r₂) ↔
      x < y ∨ (x = y ∧ r₁ < r₂) := by
  simp only [padDigits2, List.cons_append, List.nil_append]
  rw [char_cons_lt_iff, char_cons_lt_iff,
    digitChar_lt_iff _ (by omega) _ (by omega),
    digitChar_eq_iff _ (by omega) _ (by omega),
    digitChar_lt_iff _ (by omega) _ (by omega),
    digitChar_eq_iff _ (by omega) _ (by omega)]
  constructor
  · rintro (h | ⟨he, h | ⟨he2, hr⟩⟩)
    · left; omega
    · left; omega
    · exact Or.inr ⟨by omega, hr⟩
  · rintro (h | ⟨he, hr⟩)
    · by_cases hd : x / 10 < y / 10
      · exact Or.inl hd
      · exact Or.inr ⟨by omega, Or.inl (by omega)⟩
    · exact Or.inr ⟨by omega, Or.inr ⟨by omega, hr⟩⟩

/-- Parsing inverts generation on every valid instant (helper for C10). -/
theorem parseTimestamp_generateTimestamp (dt : UtcDateTime) (h : ValidInstant dt) :
    parseTimestamp (generateTimestamp dt) = some { dt with ms := 0 } := by
  obtain ⟨hvalid, hy1, hy2⟩ := h
  have hb := hvalid
  simp only [isValidDate, decide_eq_true_eq] at hb
  have hd31 := daysInMonth_le_31 dt.year dt.month
  simp only [generateTimestamp, yearDigits, padDigits2, List.cons_append,
    List.nil_append, parseTimestamp]
  simp only [and_self, if_true]
  rw [twoDigitVal_digitChar _ (by omega) _ (by omega),
    twoDigitVal_digitChar _ (by omega) _ (by omega),
    twoDigitVal_digitChar _ (by omega) _ (by omega),
    twoDigitVal_digitChar _ (by omega) _ (by omega),
    twoDigitVal_digitChar _ (by omega) _ (by omega),
    twoDigitVal_digitChar _ (by omega) _ (by omega),
    twoDigitVal_digitChar _ (by omega) _ (by omega)]
  have ey1 : 10 * (dt.year / 100 / 10) + dt.year / 100 % 10 = dt.year / 100 := by omega
  have ey2 : 10 * (dt.year % 100 / 10) + dt.year % 100 % 10 = dt.year % 100 := by omega
  have emo : 10 * (dt.month / 10) + dt.month % 10 = dt.month := by omega
  have ed : 10 * (dt.day / 10) + dt.day % 10 = dt.day := by omega
  have eh : 10 * (dt.hour / 10) + dt.hour % 10 = dt.hour := by omega
  have emi : 10 * (dt.minute / 10) + dt.minute % 10 = dt.minute := by omega
  have es : 10 * (dt.second / 10) + dt.second % 10 = dt.second := by omega
  have ey : 100 * (dt.year / 100) + dt.year % 100 = dt.year := by omega
  simp only [ey1, ey2, emo, ed, eh, emi, es, ey]
  rw [if_pos hvalid]

/-- Lexicographic order of generated timestamps is chronological order of
the second-truncated instants (helper for C10). -/
theorem generateTimestamp_lt_iff (dt₁ dt₂ : UtcDateTime)
    (h₁ : ValidInstant dt₁) (h₂ : ValidInstant dt₂) :
    (generateTimestamp dt₁ < generateTimestamp dt₂ ↔ chronKey dt₁ < chronKey dt₂) := by
  obtain ⟨hv1, hy11, hy12⟩ := h₁
  obtain ⟨hv2, hy21, hy22⟩ := h₂
  simp only [isValidDate, decide_eq_true_eq] at hv1 hv2
  have hd1 := daysInMonth_le_31 dt₁.year dt₁.month
  have hd2 := daysInMonth_le_31 dt₂.year dt₂.month
  rw [String.lt_iff_toList_lt]
  simp only [String.toList, generateTimestamp, yearDigits, List.append_assoc]
  rw [padDigits2_append_lt_iff _ _ (by omega) (by omega),
    padDigits2_append_lt_iff _ _ (by omega) (by omega),
    padDigits2_append_lt_iff _ _ (by omega) (by omega),
    padDigits2_append_lt_iff _ _ (by omega) (by omega),
    char_cons_lt_iff,
    padDigits2_append_lt_iff _ _ (by omega) (by omega),
    padDigits2_append_lt_iff _ _ (by omega) (by omega),
    padDigits2_append_lt_iff _ _ (by omega) (by omega),
    char_cons_lt_iff]
  simp only [lt_self_iff_false, eq_self_iff_true, true_and, false_or,
    char_nil_lt_nil, and_false, or_false]
  simp only [chronKey]
  omega

/-- C10.  For every valid instant, `parseTimestamp` inverts
`generateTimestamp` — parsing never fails and recovers the same UTC
instant truncated to whole seconds — and for any two valid instants the
lexicographic order of the generated timestamp strings coincides with
chronological order at that same whole-second granularity (the order the
newest-first filename sorts of lines 545, 597 and 684 rely on). -/
theorem c10_timestamp_roundtrip_and_order :
    (∀ dt : UtcDateTime, ValidInstant dt →
      parseTimestamp (generateTimestamp dt) = some { dt with ms := 0 })
    ∧ ∀ dt₁ dt₂ : UtcDateTime, ValidInstant dt₁ → ValidInstant dt₂ →
        (generateTimestamp dt₁ < generateTimestamp dt₂ ↔
          chronKey dt₁ < chronKey dt₂) :=
  ⟨parseTimestamp_generateTimestamp, generateTimestamp_lt_iff⟩

/-- The moment 2024-06-28T12:32:16.500Z. -/
def sampleInstant : UtcDateTime := ⟨2024, 6, 28, 12, 32, 16, 500⟩

/-- One second later. -/
def sampleInstantNext : UtcDateTime := ⟨2024, 6, 28, 12, 32, 17, 0⟩

/-- Witness for C10 at two concrete instants. -/
theorem c10_witness :
    ValidInstant sampleInstant ∧ ValidInstant sampleInstantNext
    ∧ parseTimestamp (generateTimestamp sampleInstant) = some { sampleInstant with ms := 0 }
    ∧ (generateTimestamp sampleInstant < generateTimestamp sampleInstantNext ↔
        chronKey sampleInstant < chronKey sampleInstantNext) :=
  ⟨by decide, by decide,
    c10_timestamp_roundtrip_and_order.1 sampleInstant (by decide),
    c10_timestamp_roundtrip_and_order.2 sampleInstant sampleInstantNext
      (by decide) (by decide)⟩

end EvFetch
